import Mathlib

/-!
Shallow embedding of the analytical core of the movie-catalog service
(`src/data_management.py` and `src/app.py`): title normalization, the
load-time aggregation/merge, the time-series bucketer, the genre-overlap
recommendation scorer of the two recommendation routes, and the
privacy-hashing search logger.  Floating point columns are modelled as
rationals; pandas tables as lists of rows; the "match_score" column that
may or may not exist as an `Option` field; a raised-and-possibly-caught
exception as `Except`.
-/

set_option maxHeartbeats 1000000

namespace MovieApp

/-- Whitespace as matched by the Python `str.strip` / regex `\s` on ASCII. -/
def isPySpace (c : Char) : Bool :=
  c = ' ' || c = '\t' || c = '\n' || c = '\r' || c = '\x0b' || c = '\x0c'

/-- Python `str.strip()`: drop whitespace from both ends. -/
def pyStrip (l : List Char) : List Char :=
  ((l.dropWhile isPySpace).reverse.dropWhile isPySpace).reverse

/-- Python `str.strip` lifted to `String`. -/
def pystrip (s : String) : String := ⟨pyStrip s.data⟩

/-- Python `str.split` at every comma, keeping empty pieces: splitting the
empty string gives one empty piece. -/
def splitComma (l : List Char) : List (List Char) :=
  l.foldr
    (fun c acc =>
      if c = ',' then [] :: acc
      else
        match acc with
        | [] => [[c]]
        | h :: t => (c :: h) :: t)
    [[]]

/-- Python `str.endswith(suf)` on character lists. -/
def endsWithL (l suf : List Char) : Bool :=
  l.reverse.take suf.length == suf.reverse

/-- Python `needle in hay` substring test on character lists. -/
def isSubOf (needle hay : List Char) : Bool :=
  (List.range (hay.length + 1)).any (fun i => (hay.drop i).take needle.length == needle)

/-! ### Title normalization (`format_title`, data_management.py lines 26-53) -/

/-- Match of the anchored regex `\s*\((\d{4})\)\s*$` read from the end of the
string: `r` is the reversed title; on success, returns the four year digits
(in forward order) and the reversed remainder with the whole matched suffix
(including the whitespace before `(`) removed. -/
def parseYearRev (r : List Char) : Option (List Char × List Char) :=
  match r.dropWhile isPySpace with
  | ')' :: r2 =>
    let ds := r2.take 4
    if ds.length = 4 && ds.all Char.isDigit then
      match r2.drop 4 with
      | '(' :: r4 => some (ds.reverse, r4.dropWhile isPySpace)
      | _ => none
    else none
  | _ => none

/-- The `re.search` of the anchored year regex combined with the `re.sub`
removing it: the title with the year suffix removed, and the captured year
if the pattern matched. -/
def stripYear (l : List Char) : List Char × Option (List Char) :=
  match parseYearRev l.reverse with
  | some (y, restRev) => (restRev.reverse, some y)
  | none => (l, none)

/-- The `format_title` function (data_management.py): move a trailing `, The` / `, A` /
`, An` article to the front, preserving a trailing `(YYYY)` year.  A missing
(`pd.isna`) title never reaches this model; the falsy empty string is
returned unchanged as in the source. -/
def format_title (s : String) : String :=
  if s.data = [] then s
  else
    let p := stripYear s.data
    let t := pyStrip p.1
    let f :=
      if endsWithL t (", The".data) then "The ".data ++ pyStrip (t.take (t.length - 5))
      else if endsWithL t (", A".data) then "A ".data ++ pyStrip (t.take (t.length - 3))
      else if endsWithL t (", An".data) then "An ".data ++ pyStrip (t.take (t.length - 4))
      else t
    match p.2 with
    | some y => ⟨f ++ " (".data ++ y ++ [')']⟩
    | none => ⟨f⟩

/-! ### Data model -/

/-- A row of `movies.csv` after display formatting: `movieId`, `title`,
`genres` (a missing genre field is `none`, mirroring `NaN`). -/
structure RawMovie where
  movieId : Int
  title : String
  genres : Option String
  deriving Repr, DecidableEq

/-- A row of `ratings.csv` with its raw Unix-second timestamp. -/
structure RatingRow where
  movieId : Int
  rating : ℚ
  timestamp : Nat
  deriving Repr, DecidableEq

/-- A row of the merged `movies_with_ratings` table.  `avg_rating` and
`rating_count` are plain (never missing) because the merge zero-fills them;
`match_score` models the per-request scratch column, `none` while the column
does not exist. -/
structure MovieRow where
  movieId : Int
  title : String
  genres : Option String
  avg_rating : ℚ
  rating_count : Nat
  match_score : Option Nat
  deriving Repr, DecidableEq

/-- The four-key dictionary returned by `get_ratings_over_time`. -/
structure ROT where
  periods : List String
  avg_ratings : List ℚ
  rating_counts : List Nat
  total_ratings : Nat
  deriving Repr, DecidableEq

/-- The all-empty result value built at data_management.py lines 130-135,
174-179 and 182-187. -/
def emptyROT : ROT := ⟨[], [], [], 0⟩

/-- The exception raised inside the bucketer: the `ValueError` carrying the
message that the period must be month or year. -/
inductive DMError where
  | invalidPeriod
  deriving Repr, DecidableEq

/-! ### Aggregator (`calculate_average_ratings` / `merge_movies_with_ratings`) -/

/-- The groupby of the ratings table on `movieId` aggregated with mean and
count: one `(movieId, mean, count)` row per distinct movie id, keys in
ascending order as the pandas `groupby` sorts them. -/
def calculate_average_ratings (ratings : List RatingRow) : List (Int × ℚ × Nat) :=
  (List.insertionSort (· ≤ ·) ((ratings.map (·.movieId)).dedup)).map fun k =>
    let grp := ratings.filter (fun r => r.movieId == k)
    (k, (grp.map (·.rating)).sum / (grp.length : ℚ), grp.length)

/-- The left merge of the movies table with the aggregates on `movieId`,
followed by `fillna(0)` on both aggregate columns.  The right side has
unique keys, so the left join is a keyed lookup; a missing aggregate becomes
`avg=0, count=0`. -/
def merge_movies_with_ratings (movies : List RawMovie) (avg : List (Int × ℚ × Nat)) :
    List MovieRow :=
  movies.map fun m =>
    match avg.find? (fun a => a.1 == m.movieId) with
    | some a => ⟨m.movieId, m.title, m.genres, a.2.1, a.2.2, none⟩
    | none => ⟨m.movieId, m.title, m.genres, 0, 0, none⟩

/-! ### Time-series bucketer (`get_ratings_over_time`) -/

/-- Civil calendar (proleptic Gregorian) year and month of a day count since
1970-01-01, for nonnegative day counts; the standard era/cycle computation
used by calendar conversions such as `pd.to_datetime` with second units. -/
def civilYM (days : Nat) : Nat × Nat :=
  let z := days + 719468
  let era := z / 146097
  let doe := z % 146097
  let yoe := (doe - doe / 1460 + doe / 36524 - doe / 146096) / 365
  let y := yoe + era * 400
  let doy := doe - (365 * yoe + yoe / 4 - yoe / 100)
  let mp := (5 * doy + 2) / 153
  let m := if mp < 10 then mp + 3 else mp - 9
  (if m ≤ 2 then y + 1 else y, m)

/-- The pandas `Period` ordinal a rating timestamp is grouped under:
months since year 0 for the month period, the calendar year for the year
period.  Grouping and chronological sorting on `Period` objects coincide
with grouping and sorting on this ordinal. -/
def periodOrdinal (period : String) (ts : Nat) : Nat :=
  let ym := civilYM (ts / 86400)
  if period = "month" then ym.1 * 12 + (ym.2 - 1) else ym.1

/-- Decimal rendering of `n`, zero-padded on the left to width `w`. -/
def padNum (w : Nat) (n : Nat) : List Char :=
  let s := (toString n).data
  List.replicate (w - s.length) '0' ++ s

/-- The period-label column: the `Period` string form truncated to 7
characters (month) or 4 characters (year), exactly as the source truncates
it. -/
def periodLabel (period : String) (k : Nat) : String :=
  if period = "month" then ⟨(padNum 4 (k / 12) ++ ['-'] ++ padNum 2 (k % 12 + 1)).take 7⟩
  else ⟨(padNum 4 k).take 4⟩

/-- Round-half-to-even on the rational model, the rounding mode of the
`float64` `.round()`. -/
def roundHalfEven (q : ℚ) : ℤ :=
  let f := q.floor
  let r := q - (f : ℚ)
  if r < 1 / 2 then f
  else if 1 / 2 < r then f + 1
  else if f % 2 = 0 then f else f + 1

/-- Rounding to two decimals on the rational model of the float mean. -/
def round2 (q : ℚ) : ℚ := (roundHalfEven (q * 100) : ℚ) / 100

/-- The body of `get_ratings_over_time` inside its `try:` block, with the
ratings file already read into `raw`.  The `raise ValueError` for an invalid
period becomes `Except.error`; note the invalid-period check is only reached
when the movie has at least one rating event. -/
def ratingsOverTimeBody (raw : List RatingRow) (movie_id : Int) (period : String) :
    Except DMError ROT :=
  let mrs := raw.filter (fun r => r.movieId == movie_id)
  if mrs.length = 0 then .ok emptyROT
  else if period = "month" ∨ period = "year" then
    let keys := List.insertionSort (· ≤ ·) ((mrs.map (fun r => periodOrdinal period r.timestamp)).dedup)
    .ok
      { periods := keys.map (periodLabel period)
        avg_ratings := keys.map fun k =>
          let grp := mrs.filter (fun r => periodOrdinal period r.timestamp == k)
          round2 ((grp.map (·.rating)).sum / (grp.length : ℚ))
        rating_counts := keys.map fun k =>
          (mrs.filter (fun r => periodOrdinal period r.timestamp == k)).length
        total_ratings := mrs.length }
  else .error .invalidPeriod

/-- The function `get_ratings_over_time` as its callers see it: the outcome of reading the
ratings file is `src` (`none` for an unreadable source), and both `except`
clauses turn any failure, including the invalid-period `ValueError`, into the
all-empty result. -/
def get_ratings_over_time (src : Option (List RatingRow)) (movie_id : Int)
    (period : String) : ROT :=
  match src with
  | none => emptyROT
  | some raw =>
    match ratingsOverTimeBody raw movie_id period with
    | .ok r => r
    | .error _ => emptyROT

/-! ### Recommendation scorer (`movie_page` / `recommend_page`, app.py) -/

/-- The source genre list: empty when the genre field is missing
(`pd.isna`) or the empty string, else the comma-split, stripped tokens. -/
def parse_genre_list (genres : Option String) : List (List Char) :=
  match genres with
  | none => []
  | some g => if g = "" then [] else (splitComma g.data).map pyStrip

/-- The inner `genre_match_score` closure: the cardinality of the
intersection of the trimmed genre-token set of the row with the genre-token
set of the source; a missing or empty genre field scores 0. -/
def genre_match_score (genre_list : List (List Char)) (genres : Option String) : Nat :=
  match genres with
  | none => 0
  | some g =>
    if g = "" then 0
    else ((((splitComma g.data).map pyStrip).dedup).filter
      (fun t => genre_list.contains t)).length

/-- The `match_score` column value of a row, `0` when the column is absent. -/
def scoreOf (r : MovieRow) : Nat := r.match_score.getD 0

/-- The key order of the `sort_values` call on the match-score and
average-rating columns, both descending: higher match score first, ties
broken by higher average rating. -/
def recRel (a b : MovieRow) : Prop :=
  scoreOf b < scoreOf a ∨ (scoreOf a = scoreOf b ∧ b.avg_rating ≤ a.avg_rating)

instance : DecidableRel recRel := fun a b =>
  inferInstanceAs (Decidable (scoreOf b < scoreOf a ∨ (scoreOf a = scoreOf b ∧ b.avg_rating ≤ a.avg_rating)))

instance : IsTrans MovieRow recRel :=
  ⟨by
    rintro a b c (h1 | ⟨h1, h1'⟩) (h2 | ⟨h2, h2'⟩)
    · exact Or.inl (h2.trans h1)
    · exact Or.inl (h2 ▸ h1)
    · exact Or.inl (h1 ▸ h2)
    · exact Or.inr ⟨h1.trans h2, h2'.trans h1'⟩⟩

instance : IsTotal MovieRow recRel :=
  ⟨by
    intro a b
    rcases Nat.lt_trichotomy (scoreOf a) (scoreOf b) with h | h | h
    · exact Or.inr (Or.inl h)
    · rcases le_total a.avg_rating b.avg_rating with h' | h'
      · exact Or.inr (Or.inr ⟨h.symm, h'⟩)
      · exact Or.inl (Or.inr ⟨h, h'⟩)
    · exact Or.inl (Or.inl h)⟩

/-- The recommendation block of `recommend_page` (app.py lines 278-308):
look up the source row, score every row of the shared table (the
shared-table `match_score` column assignment),
filter, sort and truncate.  Returns the recommendation list (`none` mirrors
the `source_movie.empty` 404 path) together with the state the shared
`movies_with_ratings` table has after the request. -/
def recommend_page_recs (tbl : List MovieRow) (movie_id : Int) :
    Option (List MovieRow) × List MovieRow :=
  match tbl.filter (fun r => r.movieId == movie_id) with
  | [] => (none, tbl)
  | s :: _ =>
    let genre_list := parse_genre_list s.genres
    let scored := tbl.map fun r =>
      { r with match_score := some (genre_match_score genre_list r.genres) }
    let filtered := scored.filter fun r =>
      (!(r.movieId == movie_id)) && decide (10 ≤ r.rating_count) && decide (0 < scoreOf r)
    (some ((List.insertionSort recRel filtered).take 6), scored)

/-- The recommendation block of `movie_page` (app.py lines 223-256), a
separate transcription of the copy of the same code in the detail view:
source row lookup, per-row `genre_match_score`, the same shared-column
assignment, the same filter / sort / `head(6)`. -/
def movie_page_recs (tbl : List MovieRow) (movie_id : Int) :
    Option (List MovieRow) × List MovieRow :=
  match tbl.filter (fun r => r.movieId == movie_id) with
  | [] => (none, tbl)
  | s :: _ =>
    let genre_list := parse_genre_list s.genres
    let scored := tbl.map fun r =>
      { r with match_score := some (genre_match_score genre_list r.genres) }
    let filtered := scored.filter fun r =>
      (!(r.movieId == movie_id)) && decide (10 ≤ r.rating_count) && decide (0 < scoreOf r)
    (some ((List.insertionSort recRel filtered).take 6), scored)

/-! ### Search-interest logger (`sanitize_input` / `hash_search_term` /
`save_search_log`, app.py).  `hashlib.sha256(...).hexdigest()` is modelled by
a full SHA-256 (FIPS 180-4) over the UTF-8 bytes of the term, with 32-bit
words as naturals reduced mod 2^32. -/

/-- Concatenation of a list of lists. -/
def catLists (ls : List (List α)) : List α := ls.foldr (· ++ ·) []

/-- Addition of 32-bit words. -/
def add32 (a b : Nat) : Nat := (a + b) % 4294967296

/-- Right rotation of a 32-bit word by `n` bits. -/
def rotr32 (n a : Nat) : Nat := a / 2 ^ n + a % 2 ^ n * 2 ^ (32 - n)

/-- Logical right shift of a 32-bit word by `n` bits. -/
def shr32 (n a : Nat) : Nat := a / 2 ^ n

/-- Bitwise complement of a 32-bit word. -/
def not32 (a : Nat) : Nat := 4294967295 - a

/-- The SHA-256 `Ch` function. -/
def shaCh (e f g : Nat) : Nat := (e &&& f) ^^^ (not32 e &&& g)

/-- The SHA-256 `Maj` function. -/
def shaMaj (a b c : Nat) : Nat := (a &&& b) ^^^ (a &&& c) ^^^ (b &&& c)

/-- The SHA-256 big sigma-0 function. -/
def bsig0 (a : Nat) : Nat := rotr32 2 a ^^^ rotr32 13 a ^^^ rotr32 22 a

/-- The SHA-256 big sigma-1 function. -/
def bsig1 (a : Nat) : Nat := rotr32 6 a ^^^ rotr32 11 a ^^^ rotr32 25 a

/-- The SHA-256 small sigma-0 function. -/
def ssig0 (a : Nat) : Nat := rotr32 7 a ^^^ rotr32 18 a ^^^ shr32 3 a

/-- The SHA-256 small sigma-1 function. -/
def ssig1 (a : Nat) : Nat := rotr32 17 a ^^^ rotr32 19 a ^^^ shr32 10 a

/-- The 64 SHA-256 round constants. -/
def K256 : List Nat :=
  [1116352408, 1899447441, 3049323471, 3921009573, 961987163,
   1508970993, 2453635748, 2870763221, 3624381080, 310598401,
   607225278, 1426881987, 1925078388, 2162078206, 2614888103,
   3248222580, 3835390401, 4022224774, 264347078, 604807628,
   770255983, 1249150122, 1555081692, 1996064986, 2554220882,
   2821834349, 2952996808, 3210313671, 3336571891, 3584528711,
   113926993, 338241895, 666307205, 773529912, 1294757372,
   1396182291, 1695183700, 1986661051, 2177026350, 2456956037,
   2730485921, 2820302411, 3259730800, 3345764771, 3516065817,
   3600352804, 4094571909, 275423344, 430227734, 506948616,
   659060556, 883997877, 958139571, 1322822218, 1537002063,
   1747873779, 1955562222, 2024104815, 2227730452, 2361852424,
   2428436474, 2756734187, 3204031479, 3329325298]

/-- The SHA-256 initial hash value. -/
def H256 : List Nat :=
  [1779033703, 3144134277, 1013904242, 2773480762,
   1359893119, 2600822924, 528734635, 1541459225]

/-- The `n` big-endian bytes of `x`. -/
def bytesBE (n x : Nat) : List Nat :=
  (List.range n).map fun i => x / 2 ^ (8 * (n - 1 - i)) % 256

/-- SHA-256 message padding: `0x80`, zeros to 56 mod 64, then the bit length
as 8 big-endian bytes. -/
def padMsg (m : List Nat) : List Nat :=
  m ++ [128] ++ List.replicate ((120 - (m.length + 1) % 64) % 64) 0
    ++ bytesBE 8 (m.length * 8)

/-- Split a byte list into 64-byte blocks. -/
def chunks64 (l : List Nat) : List (List Nat) :=
  if h : l = [] then []
  else l.take 64 :: chunks64 (l.drop 64)
termination_by l.length
decreasing_by
  simp only [List.length_drop]
  exact Nat.sub_lt (List.length_pos.mpr h) (by norm_num)

/-- A big-endian 32-bit word from four bytes. -/
def wordOfBytes (bs : List Nat) : Nat := bs.foldl (fun a b => a * 256 + b) 0

/-- The sixteen 32-bit words of one 64-byte block. -/
def blockWords (block : List Nat) : List Nat :=
  (List.range 16).map fun i => wordOfBytes ((block.drop (4 * i)).take 4)

/-- The 64-entry SHA-256 message schedule grown from the 16 block words. -/
def schedule (ws : List Nat) : List Nat :=
  (List.range 48).foldl
    (fun acc _ =>
      acc ++ [add32
        (add32 (ssig1 (acc.getD (acc.length - 2) 0)) (acc.getD (acc.length - 7) 0))
        (add32 (ssig0 (acc.getD (acc.length - 15) 0)) (acc.getD (acc.length - 16) 0))])
    ws

/-- One SHA-256 compression round on the eight-word working state. -/
def compressRound (st : List Nat) (wk : Nat × Nat) : List Nat :=
  match st with
  | [a, b, c, d, e, f, g, h] =>
    let t1 := add32 h (add32 (bsig1 e) (add32 (shaCh e f g) (add32 wk.1 wk.2)))
    let t2 := add32 (bsig0 a) (shaMaj a b c)
    [add32 t1 t2, a, b, c, add32 d t1, e, f, g]
  | _ => st

/-- Process one 64-byte block: run the 64 rounds and add the result back
into the hash value. -/
def processBlock (hs : List Nat) (block : List Nat) : List Nat :=
  let st := ((schedule (blockWords block)).zip K256).foldl compressRound hs
  (hs.zip st).map fun p => add32 p.1 p.2

/-- The 32-byte SHA-256 digest of a byte string. -/
def sha256bytes (m : List Nat) : List Nat :=
  catLists (((chunks64 (padMsg m)).foldl processBlock H256).map (bytesBE 4))

/-- The UTF-8 encoding of one character. -/
def utf8Char (c : Char) : List Nat :=
  let n := c.toNat
  if n < 128 then [n]
  else if n < 2048 then [192 + n / 64, 128 + n % 64]
  else if n < 65536 then [224 + n / 4096, 128 + n / 64 % 64, 128 + n % 64]
  else [240 + n / 262144, 128 + n / 4096 % 64, 128 + n / 64 % 64, 128 + n % 64]

/-- The UTF-8 byte encoding of the search term. -/
def utf8Bytes (s : String) : List Nat := catLists (s.data.map utf8Char)

/-- The lowercase hex digit for a nibble. -/
def hexChar (n : Nat) : Char := if n < 10 then Char.ofNat (48 + n) else Char.ofNat (87 + n)

/-- The two hex digits of one byte (bytes are below 256, so the reduction
mod 16 on the high nibble is the identity on the actual inputs). -/
def hexPair (b : Nat) : List Char := [hexChar (b / 16 % 16), hexChar (b % 16)]

/-- The hexdigest: the digest bytes as lowercase hex characters. -/
def hexDigest (bs : List Nat) : List Char := catLists (bs.map hexPair)

/-- The function `hash_search_term` (app.py lines 88-93): `None` for a falsy term, else
the first 16 hex characters of the SHA-256 digest of the UTF-8 bytes of
the term. -/
def hash_search_term (s : String) : Option String :=
  if s = "" then none
  else some ⟨(hexDigest (sha256bytes (utf8Bytes s))).take 16⟩

/-- Python control characters removed by `sanitize_input`: `\x00-\x1f` and
`\x7f-\x9f` (the explicit `\x00` replace is subsumed by the character
class). -/
def isCtlChar (c : Char) : Bool :=
  decide (c.toNat ≤ 31) || (decide (127 ≤ c.toNat) && decide (c.toNat ≤ 159))

/-- The function `sanitize_input` (app.py lines 66-86): strip, cap at `maxLength`
characters, drop control characters, and return `None` for a falsy input or
an empty result. -/
def sanitize_input (text : String) (maxLength : Nat) : Option String :=
  if text = "" then none
  else
    let t1 := pyStrip text.data
    let t2 := if maxLength < t1.length then t1.take maxLength else t1
    let t3 := t2.filter (fun c => !isCtlChar c)
    if t3 = [] then none else some ⟨t3⟩

/-- One record of the persisted search log: the hashed term, the
`datetime.now().isoformat()` string, and the genre list. -/
structure SearchLogEntry where
  search_term_hash : Option String
  timestamp : String
  genres : List String
  deriving Repr, DecidableEq

/-- The function `save_search_log` (app.py lines 111-133) acting on the in-memory log
list it writes back: a term that sanitizes to nothing drops the call, any
other term appends one entry holding the hash, the current time `now` and
the genre list.  The write itself (and its swallowed write failure) is external
to this model. -/
def save_search_log (search_term : String) (genres : List String) (now : String)
    (logs : List SearchLogEntry) : List SearchLogEntry :=
  match sanitize_input search_term 100 with
  | none => logs
  | some t => logs ++ [⟨hash_search_term t, now, genres⟩]

/-! ### Helper lemmas -/

theorem body_error_of_invalid (raw : List RatingRow) (id : Int) (period : String)
    (h1 : period ≠ "month") (h2 : period ≠ "year")
    (hne : raw.filter (fun r => r.movieId == id) ≠ []) :
    ratingsOverTimeBody raw id period = .error .invalidPeriod := by
  have hv : ¬(period = "month" ∨ period = "year") := by
    rintro (h | h)
    · exact h1 h
    · exact h2 h
  have hz : ¬((raw.filter (fun r => r.movieId == id)).length = 0) := by
    intro h
    exact hne (List.length_eq_zero.mp h)
  unfold ratingsOverTimeBody
  simp only [if_neg hz, if_neg hv]

theorem get_some_invalid (raw : List RatingRow) (id : Int) (period : String)
    (h1 : period ≠ "month") (h2 : period ≠ "year") :
    get_ratings_over_time (some raw) id period = emptyROT := by
  have hv : ¬(period = "month" ∨ period = "year") := by
    rintro (h | h)
    · exact h1 h
    · exact h2 h
  unfold get_ratings_over_time ratingsOverTimeBody
  by_cases hz : (raw.filter (fun r => r.movieId == id)).length = 0
  · simp only [if_pos hz]
  · simp only [if_neg hz, if_neg hv]

theorem get_some_nofilter (raw : List RatingRow) (id : Int) (period : String)
    (hz : raw.filter (fun r => r.movieId == id) = []) :
    get_ratings_over_time (some raw) id period = emptyROT := by
  unfold get_ratings_over_time ratingsOverTimeBody
  simp only [if_pos (show (raw.filter (fun r => r.movieId == id)).length = 0 by rw [hz]; rfl)]

/-! ### Claim theorems -/

/-- C1 counterexample: for item 1 holding one rating event and the invalid
period `"week"`, the body of the bucketer does raise the invalid-period
error, but `get_ratings_over_time` — the operation its callers invoke —
catches it and returns the ordinary all-empty result, so no `InvalidPeriod`
failure reaches the caller, contrary to the claim. -/
theorem invalid_period_cex :
    ratingsOverTimeBody [⟨1, 5, 0⟩] 1 "week" = .error .invalidPeriod ∧
    get_ratings_over_time (some [⟨1, 5, 0⟩]) 1 "week" = emptyROT := by
  constructor
  · rfl
  · rfl

/-- C1 (amended): for every item id and every period other than `"month"` or
`"year"`, the bucketing body raises the invalid-period `ValueError` whenever
the item has at least one rating event, but `get_ratings_over_time` swallows
it and returns the all-empty normal result to its caller (and when the item
has no rating events the period is not inspected at all). -/
theorem invalid_period_swallowed (raw : List RatingRow) (id : Int) (period : String)
    (h1 : period ≠ "month") (h2 : period ≠ "year") :
    (raw.filter (fun r => r.movieId == id) ≠ [] →
      ratingsOverTimeBody raw id period = .error .invalidPeriod) ∧
    get_ratings_over_time (some raw) id period = emptyROT := by
  constructor
  · intro hne
    exact body_error_of_invalid raw id period h1 h2 hne
  · exact get_some_invalid raw id period h1 h2

/-- C1 witness: the amended statement instantiated at the one-event table
for item 1 and period `"week"`. -/
theorem invalid_period_swallowed_witness :
    ([⟨1, 5, 0⟩] : List RatingRow).filter (fun r => r.movieId == 1) ≠ [] ∧
    ratingsOverTimeBody [⟨1, 5, 0⟩] 1 "week" = .error .invalidPeriod ∧
    get_ratings_over_time (some [⟨1, 5, 0⟩]) 1 "week" = emptyROT := by
  have h := invalid_period_swallowed [⟨1, 5, 0⟩] 1 "week" (by decide) (by decide)
  exact ⟨by decide, h.1 (by decide), h.2⟩

/-- C10: `get_ratings_over_time` is total and degrades every failure to the
all-empty result: an unreadable ratings source (`src = none`), an invalid
period (whatever the source holds), and an item with no rating events all
yield exactly `emptyROT`, the same four-field record with
`total_ratings = 0` — the three cases are indistinguishable.  The result
type `ROT` has exactly the four keys `periods`, `avg_ratings`,
`rating_counts`, `total_ratings`. -/
theorem rot_total_on_failure (src : Option (List RatingRow)) (id : Int) (period : String) :
    (src = none → get_ratings_over_time src id period = emptyROT) ∧
    (period ≠ "month" → period ≠ "year" → get_ratings_over_time src id period = emptyROT) ∧
    (∀ raw, src = some raw → raw.filter (fun r => r.movieId == id) = [] →
      get_ratings_over_time src id period = emptyROT) := by
  refine ⟨?_, ?_, ?_⟩
  · rintro rfl
    rfl
  · intro h1 h2
    cases src with
    | none => rfl
    | some raw => exact get_some_invalid raw id period h1 h2
  · rintro raw rfl hz
    exact get_some_nofilter raw id period hz

/-- C10 witness: the failure cases instantiated concretely — missing
source, invalid period `"week"` on a one-event table, and an item with no
matching events. -/
theorem rot_total_on_failure_witness :
    get_ratings_over_time none 1 "month" = emptyROT ∧
    get_ratings_over_time (some [⟨1, 5, 0⟩]) 1 "week" = emptyROT ∧
    get_ratings_over_time (some [⟨2, 5, 0⟩]) 1 "month" = emptyROT := by
  refine ⟨(rot_total_on_failure none 1 "month").1 rfl, ?_, ?_⟩
  · exact (rot_total_on_failure (some [⟨1, 5, 0⟩]) 1 "week").2.1 (by decide) (by decide)
  · exact (rot_total_on_failure (some [⟨2, 5, 0⟩]) 1 "month").2.2 [⟨2, 5, 0⟩] rfl (by decide)

/-- C9: the recommendation block of the single-item detail view
(`movie_page`) and the one of the dedicated recommendation view
(`recommend_page`) compute identical results — same recommendation list
(same items, same order, same length) and the same table state — for every
table and every source id. -/
theorem detail_and_recommend_views_agree (tbl : List MovieRow) (movie_id : Int) :
    movie_page_recs tbl movie_id = recommend_page_recs tbl movie_id := rfl

/-- C2: computing recommendations does NOT leave the shared loaded item
table unchanged: the `match_score` column assignment at app.py lines 250 and
297 writes the per-request scores into the shared `movies_with_ratings`
table in place.  On a two-row table whose rows share the genre `Action`, the
table after serving `recommend(1)` differs from the table after load (both
rows now carry `match_score = 1`). -/
theorem recommend_mutates_shared_table :
    (recommend_page_recs
        [⟨1, "A", some "Action", 4, 20, none⟩, ⟨2, "B", some "Action", 3, 20, none⟩] 1).2
      = [⟨1, "A", some "Action", 4, 20, some 1⟩, ⟨2, "B", some "Action", 3, 20, some 1⟩] ∧
    (recommend_page_recs
        [⟨1, "A", some "Action", 4, 20, none⟩, ⟨2, "B", some "Action", 3, 20, none⟩] 1).2
      ≠ [⟨1, "A", some "Action", 4, 20, none⟩, ⟨2, "B", some "Action", 3, 20, none⟩] := by
  constructor
  · decide
  · decide

theorem one_le_count_of_mem_calculate (ratings : List RatingRow) (a : Int × ℚ × Nat)
    (ha : a ∈ calculate_average_ratings ratings) : 1 ≤ a.2.2 := by
  unfold calculate_average_ratings at ha
  obtain ⟨k, hk, rfl⟩ := List.mem_map.mp ha
  have hk' : k ∈ (ratings.map (·.movieId)).dedup :=
    (List.perm_insertionSort (· ≤ ·) _).subset hk
  have hk'' : k ∈ ratings.map (·.movieId) := List.mem_dedup.mp hk'
  obtain ⟨r, hr, hrk⟩ := List.mem_map.mp hk''
  have : r ∈ ratings.filter (fun r => r.movieId == k) := by
    rw [List.mem_filter]
    exact ⟨hr, by simp [hrk]⟩
  have hne : ratings.filter (fun r => r.movieId == k) ≠ [] := by
    intro h
    rw [h] at this
    exact absurd this (List.not_mem_nil r)
  simpa [Nat.succ_le_iff, List.length_pos] using hne

/-- C5: after the load-time merge, the aggregate columns are total (the
merged table has one row per movie, with plain, never-missing `avg_rating`
and `rating_count` fields — the `fillna(0)` zero-fill), and every merged row
with `rating_count = 0` has `avg_rating = 0` exactly. -/
theorem merge_zero_fill (movies : List RawMovie) (ratings : List RatingRow) :
    (merge_movies_with_ratings movies (calculate_average_ratings ratings)).length
      = movies.length ∧
    ∀ it ∈ merge_movies_with_ratings movies (calculate_average_ratings ratings),
      it.rating_count = 0 → it.avg_rating = 0 := by
  constructor
  · unfold merge_movies_with_ratings
    exact List.length_map _ _
  · intro it hit hcnt
    unfold merge_movies_with_ratings at hit
    obtain ⟨m, _, heq⟩ := List.mem_map.mp hit
    cases hfind : (calculate_average_ratings ratings).find? (fun a => a.1 == m.movieId) with
    | none =>
      rw [hfind] at heq
      rw [← heq]
    | some a =>
      rw [hfind] at heq
      have ha := List.mem_of_find?_eq_some hfind
      have h1 := one_le_count_of_mem_calculate ratings a ha
      rw [← heq] at hcnt
      simp only at hcnt
      omega

/-- C5 witness: a movie with no matching rating events is zero-filled, and
the merged table has one row per movie. -/
theorem merge_zero_fill_witness :
    (merge_movies_with_ratings [⟨1, "A", none⟩] [⟨2, 4, 0⟩]).length = 1 ∧
    (⟨1, "A", none, 0, 0, none⟩ : MovieRow).avg_rating = 0 :=
  ⟨(merge_zero_fill [⟨1, "A", none⟩] [⟨2, 4, 0⟩]).1,
   (merge_zero_fill [⟨1, "A", none⟩] [⟨2, 4, 0⟩]).2 ⟨1, "A", none, 0, 0, none⟩
     (by decide) (by decide)⟩

theorem recommend_page_recs_eq (tbl : List MovieRow) (id : Int) (s : MovieRow)
    (rest : List MovieRow) (hs : tbl.filter (fun r => r.movieId == id) = s :: rest) :
    recommend_page_recs tbl id =
      (some ((List.insertionSort recRel
        ((tbl.map (fun r =>
            { r with match_score := some (genre_match_score (parse_genre_list s.genres) r.genres) })).filter
          (fun r => (!(r.movieId == id)) && decide (10 ≤ r.rating_count)
            && decide (0 < scoreOf r)))).take 6),
       tbl.map (fun r =>
         { r with match_score := some (genre_match_score (parse_genre_list s.genres) r.genres) })) := by
  unfold recommend_page_recs
  rw [hs]

/-- C3: whenever the source item is present in the table, the recommendation
list has at most 6 entries and every returned item is distinct from the
source, has at least 10 ratings, has a strictly positive genre-overlap score
against the source — in particular its genre field is neither missing nor
empty. -/
theorem recommend_exclusions (tbl : List MovieRow) (id : Int) (s : MovieRow)
    (rest : List MovieRow) (hs : tbl.filter (fun r => r.movieId == id) = s :: rest) :
    ∃ recs scored, recommend_page_recs tbl id = (some recs, scored) ∧
      recs.length ≤ 6 ∧
      ∀ x ∈ recs, x.movieId ≠ id ∧ 10 ≤ x.rating_count ∧
        0 < genre_match_score (parse_genre_list s.genres) x.genres ∧
        x.genres ≠ none ∧ x.genres ≠ some "" := by
  refine ⟨_, _, recommend_page_recs_eq tbl id s rest hs, List.length_take_le 6 _, ?_⟩
  intro x hx
  have hx1 := List.take_subset 6 _ hx
  have hx2 := (List.perm_insertionSort recRel _).subset hx1
  rw [List.mem_filter] at hx2
  obtain ⟨hxs, hcond⟩ := hx2
  simp only [Bool.and_eq_true, Bool.not_eq_true', beq_eq_false_iff_ne,
    decide_eq_true_eq] at hcond
  obtain ⟨⟨hid, hrc⟩, hsc⟩ := hcond
  obtain ⟨r, _, hxr⟩ := List.mem_map.mp hxs
  have hgen : x.genres = r.genres := by rw [← hxr]
  have hms : x.match_score
      = some (genre_match_score (parse_genre_list s.genres) r.genres) := by rw [← hxr]
  have hsc' : 0 < genre_match_score (parse_genre_list s.genres) x.genres := by
    unfold scoreOf at hsc
    rw [hms] at hsc
    rw [hgen]
    simpa using hsc
  refine ⟨hid, hrc, hsc', ?_, ?_⟩
  · intro hnone
    rw [hnone] at hsc'
    simp [genre_match_score] at hsc'
  · intro hempty
    rw [hempty] at hsc'
    simp [genre_match_score] at hsc'

/-- C3 witness: a three-row table whose source row 1 shares a genre with the
popular row 2 but not with row 3. -/
theorem recommend_exclusions_witness :
    ([⟨1, "A", some "Action, Drama", 4, 20, none⟩,
      ⟨2, "B", some "Action", 3, 20, none⟩,
      ⟨3, "C", some "Comedy", 5, 20, none⟩] : List MovieRow).filter
        (fun r => r.movieId == 1)
      = ⟨1, "A", some "Action, Drama", 4, 20, none⟩ :: [] ∧
    ∃ recs scored,
      recommend_page_recs
        [⟨1, "A", some "Action, Drama", 4, 20, none⟩,
         ⟨2, "B", some "Action", 3, 20, none⟩,
         ⟨3, "C", some "Comedy", 5, 20, none⟩] 1 = (some recs, scored) ∧
      recs.length ≤ 6 ∧
      ∀ x ∈ recs, x.movieId ≠ 1 ∧ 10 ≤ x.rating_count ∧
        0 < genre_match_score
          (parse_genre_list (some "Action, Drama")) x.genres ∧
        x.genres ≠ none ∧ x.genres ≠ some "" :=
  ⟨by decide,
   recommend_exclusions
     [⟨1, "A", some "Action, Drama", 4, 20, none⟩,
      ⟨2, "B", some "Action", 3, 20, none⟩,
      ⟨3, "C", some "Comedy", 5, 20, none⟩] 1
     ⟨1, "A", some "Action, Drama", 4, 20, none⟩ [] (by decide)⟩

/-- C4: the recommendation list is sorted by the pandas sort key — for any
returned item `a` positioned before an item `b`, either the genre-overlap
score of `a` is strictly greater, or the scores are equal and the average
rating of `a` is at least that of `b`. -/
theorem recommend_ordering (tbl : List MovieRow) (id : Int) (recs scored : List MovieRow)
    (h : recommend_page_recs tbl id = (some recs, scored)) :
    recs.Pairwise (fun a b =>
      scoreOf b < scoreOf a ∨ (scoreOf a = scoreOf b ∧ b.avg_rating ≤ a.avg_rating)) := by
  cases hs : tbl.filter (fun r => r.movieId == id) with
  | nil =>
    unfold recommend_page_recs at h
    rw [hs] at h
    simp at h
  | cons s rest =>
    rw [recommend_page_recs_eq tbl id s rest hs] at h
    injection h with h1 h2
    injection h1 with h1
    rw [← h1]
    exact List.Pairwise.sublist (List.take_sublist 6 _)
      (List.sorted_insertionSort recRel _)

/-- C4 witness: on a concrete four-row table the sortedness property is
obtained by applying the ordering theorem to the computed output. -/
theorem recommend_ordering_witness :
    ∃ recs scored,
      recommend_page_recs
        [⟨1, "A", some "Action, Drama", 4, 20, none⟩,
         ⟨2, "B", some "Action", 3, 20, none⟩,
         ⟨3, "C", some "Action, Drama", 5, 20, none⟩,
         ⟨4, "D", some "Drama", 4, 20, none⟩] 1 = (some recs, scored) ∧
      recs.Pairwise (fun a b =>
        scoreOf b < scoreOf a ∨ (scoreOf a = scoreOf b ∧ b.avg_rating ≤ a.avg_rating)) := by
  refine ⟨_, _, rfl, ?_⟩
  exact recommend_ordering
    [⟨1, "A", some "Action, Drama", 4, 20, none⟩,
     ⟨2, "B", some "Action", 3, 20, none⟩,
     ⟨3, "C", some "Action, Drama", 5, 20, none⟩,
     ⟨4, "D", some "Drama", 4, 20, none⟩] 1 _ _ rfl

theorem sum_map_add_nat {β : Type} (l : List β) (f g : β → Nat) :
    (l.map (fun k => f k + g k)).sum = (l.map f).sum + (l.map g).sum := by
  induction l with
  | nil => rfl
  | cons a t ih =>
    simp only [List.map_cons, List.sum_cons, ih]
    omega

theorem sum_map_ind {β : Type} [DecidableEq β] (l : List β) (hl : l.Nodup) (a : β) :
    (l.map (fun k => if a = k then (1 : Nat) else 0)).sum = if a ∈ l then 1 else 0 := by
  induction l with
  | nil => simp
  | cons b t ih =>
    rw [List.nodup_cons] at hl
    obtain ⟨hb, ht⟩ := hl
    by_cases hba : a = b
    · subst hba
      simp [hb, ih ht]
    · simp [hba, ih ht]

theorem sum_count_dedup {β : Type} [DecidableEq β] (L : List β) :
    (L.dedup.map (fun k => L.count k)).sum = L.length := by
  induction L with
  | nil => rfl
  | cons a t ih =>
    have hcnt : (fun k => (a :: t).count k)
        = (fun k => t.count k + if a = k then 1 else 0) := by
      funext k
      rw [List.count_cons]
      simp [beq_iff_eq]
    by_cases h : a ∈ t
    · rw [List.dedup_cons_of_mem h]
      calc (t.dedup.map fun k => (a :: t).count k).sum
          = (t.dedup.map fun k => t.count k + if a = k then 1 else 0).sum := by rw [hcnt]
        _ = t.length + 1 := by
            rw [sum_map_add_nat, ih, sum_map_ind t.dedup (List.nodup_dedup t) a,
              if_pos (List.mem_dedup.mpr h)]
        _ = (a :: t).length := by simp [Nat.add_comm]
    · rw [List.dedup_cons_of_not_mem h]
      simp only [List.map_cons, List.sum_cons]
      have h1 : (a :: t).count a = 1 := by
        rw [List.count_cons, List.count_eq_zero.mpr h]
        simp
      have h2 : (t.dedup.map fun k => (a :: t).count k).sum = t.length := by
        calc (t.dedup.map fun k => (a :: t).count k).sum
            = (t.dedup.map fun k => t.count k + if a = k then 1 else 0).sum := by rw [hcnt]
          _ = t.length := by
              rw [sum_map_add_nat, ih, sum_map_ind t.dedup (List.nodup_dedup t) a,
                if_neg (fun hm => h (List.mem_dedup.mp hm))]
              omega
      rw [h1, h2]
      simp [Nat.add_comm]

theorem length_filter_key {α β : Type} [DecidableEq β] (l : List α) (f : α → β) (k : β) :
    (l.filter (fun x => f x == k)).length = (l.map f).count k := by
  rw [List.count_eq_countP, List.countP_map, List.countP_eq_length_filter]
  rfl

theorem sum_groups {α : Type} (l : List α) (f : α → Nat) (keys : List Nat)
    (hk : keys.Perm ((l.map f).dedup)) :
    (keys.map (fun k => (l.filter (fun x => f x == k)).length)).sum = l.length := by
  rw [(hk.map _).sum_eq]
  calc ((l.map f).dedup.map fun k => (l.filter (fun x => f x == k)).length).sum
      = ((l.map f).dedup.map fun k => (l.map f).count k).sum := by
        simp only [length_filter_key]
    _ = (l.map f).length := sum_count_dedup _
    _ = l.length := List.length_map _ _

theorem get_rot_valid (raw : List RatingRow) (id : Int) (period : String)
    (hp : period = "month" ∨ period = "year")
    (hz : ¬(raw.filter (fun r => r.movieId == id)).length = 0) :
    get_ratings_over_time (some raw) id period =
      { periods := (List.insertionSort (· ≤ ·) (((raw.filter (fun r => r.movieId == id)).map
            (fun r => periodOrdinal period r.timestamp)).dedup)).map (periodLabel period)
        avg_ratings := (List.insertionSort (· ≤ ·) (((raw.filter (fun r => r.movieId == id)).map
            (fun r => periodOrdinal period r.timestamp)).dedup)).map (fun k =>
              let grp := (raw.filter (fun r => r.movieId == id)).filter
                (fun r => periodOrdinal period r.timestamp == k)
              round2 ((grp.map (·.rating)).sum / (grp.length : ℚ)))
        rating_counts := (List.insertionSort (· ≤ ·) (((raw.filter (fun r => r.movieId == id)).map
            (fun r => periodOrdinal period r.timestamp)).dedup)).map (fun k =>
              ((raw.filter (fun r => r.movieId == id)).filter
                (fun r => periodOrdinal period r.timestamp == k)).length)
        total_ratings := (raw.filter (fun r => r.movieId == id)).length } := by
  unfold get_ratings_over_time ratingsOverTimeBody
  simp only [if_neg hz, if_pos hp]

/-- C6: for every item id and a valid period, the three output sequences of
`get_ratings_over_time` have equal lengths (index-aligned buckets), and
`total_ratings` equals both the number of raw rating events matching the
item and the sum of all `rating_counts` entries. -/
theorem rot_alignment_conservation (raw : List RatingRow) (id : Int) (period : String)
    (hp : period = "month" ∨ period = "year") :
    ((get_ratings_over_time (some raw) id period).periods.length
        = (get_ratings_over_time (some raw) id period).avg_ratings.length) ∧
    ((get_ratings_over_time (some raw) id period).periods.length
        = (get_ratings_over_time (some raw) id period).rating_counts.length) ∧
    ((get_ratings_over_time (some raw) id period).total_ratings
        = (raw.filter (fun r => r.movieId == id)).length) ∧
    ((get_ratings_over_time (some raw) id period).rating_counts.sum
        = (get_ratings_over_time (some raw) id period).total_ratings) := by
  by_cases hz : (raw.filter (fun r => r.movieId == id)).length = 0
  · have hempty : get_ratings_over_time (some raw) id period = emptyROT := by
      unfold get_ratings_over_time ratingsOverTimeBody
      simp only [if_pos hz]
    rw [hempty]
    exact ⟨rfl, rfl, hz.symm, rfl⟩
  · rw [get_rot_valid raw id period hp hz]
    refine ⟨by simp, by simp, rfl, ?_⟩
    exact sum_groups (raw.filter (fun r => r.movieId == id))
      (fun r => periodOrdinal period r.timestamp)
      (List.insertionSort (· ≤ ·) _) (List.perm_insertionSort _ _)

/-- C6 witness: the worked example of the specification — three ratings for
item 1 in 2019-03, 2019-03 and 2020-01 — bucketed monthly, together with
the exact output value. -/
theorem rot_alignment_conservation_witness :
    (((get_ratings_over_time (some [⟨1, 5, 1551398400⟩, ⟨1, 3, 1552608000⟩,
        ⟨1, 4, 1578614400⟩]) 1 "month").periods.length
      = (get_ratings_over_time (some [⟨1, 5, 1551398400⟩, ⟨1, 3, 1552608000⟩,
        ⟨1, 4, 1578614400⟩]) 1 "month").avg_ratings.length) ∧
    ((get_ratings_over_time (some [⟨1, 5, 1551398400⟩, ⟨1, 3, 1552608000⟩,
        ⟨1, 4, 1578614400⟩]) 1 "month").periods.length
      = (get_ratings_over_time (some [⟨1, 5, 1551398400⟩, ⟨1, 3, 1552608000⟩,
        ⟨1, 4, 1578614400⟩]) 1 "month").rating_counts.length) ∧
    ((get_ratings_over_time (some [⟨1, 5, 1551398400⟩, ⟨1, 3, 1552608000⟩,
        ⟨1, 4, 1578614400⟩]) 1 "month").total_ratings
      = (([⟨1, 5, 1551398400⟩, ⟨1, 3, 1552608000⟩, ⟨1, 4, 1578614400⟩] :
          List RatingRow).filter (fun r => r.movieId == 1)).length) ∧
    ((get_ratings_over_time (some [⟨1, 5, 1551398400⟩, ⟨1, 3, 1552608000⟩,
        ⟨1, 4, 1578614400⟩]) 1 "month").rating_counts.sum
      = (get_ratings_over_time (some [⟨1, 5, 1551398400⟩, ⟨1, 3, 1552608000⟩,
        ⟨1, 4, 1578614400⟩]) 1 "month").total_ratings)) ∧
    (get_ratings_over_time (some [⟨1, 5, 1551398400⟩, ⟨1, 3, 1552608000⟩,
        ⟨1, 4, 1578614400⟩]) 1 "month").periods = ["2019-03", "2020-01"] ∧
    (get_ratings_over_time (some [⟨1, 5, 1551398400⟩, ⟨1, 3, 1552608000⟩,
        ⟨1, 4, 1578614400⟩]) 1 "month").rating_counts = [2, 1] ∧
    (get_ratings_over_time (some [⟨1, 5, 1551398400⟩, ⟨1, 3, 1552608000⟩,
        ⟨1, 4, 1578614400⟩]) 1 "month").total_ratings = 3 :=
  ⟨rot_alignment_conservation [⟨1, 5, 1551398400⟩, ⟨1, 3, 1552608000⟩,
      ⟨1, 4, 1578614400⟩] 1 "month" (Or.inl rfl),
   by decide, by decide, by decide⟩

theorem stripYear_fst_of_none {l : List Char} (h : (stripYear l).2 = none) :
    (stripYear l).1 = l := by
  unfold stripYear at h ⊢
  cases hp : parseYearRev l.reverse with
  | none => rfl
  | some yr =>
    obtain ⟨y, restRev⟩ := yr
    rw [hp] at h
    simp at h

theorem string_mk_data (s : String) : String.mk s.data = s := rfl

/-- C7 counterexample: `" Toy Story"` carries no year pattern and none of
the three recognized article suffixes (checked, as in the source, on the
year-stripped title), yet `format_title` changes it — the leading
whitespace is stripped — so titles without a recognized suffix are not
always left unchanged. -/
theorem format_title_unchanged_cex :
    (stripYear " Toy Story".data).2 = none ∧
    endsWithL (pyStrip (stripYear " Toy Story".data).1) (", The".data) = false ∧
    endsWithL (pyStrip (stripYear " Toy Story".data).1) (", A".data) = false ∧
    endsWithL (pyStrip (stripYear " Toy Story".data).1) (", An".data) = false ∧
    format_title " Toy Story" = "Toy Story" ∧
    " Toy Story" ≠ "Toy Story" :=
  ⟨by decide, by decide, by decide, by decide, by decide, by decide⟩

/-- C7 (amended): the three round-trip examples of the specification hold
— `"Godfather, The (1972)"` → `"The Godfather (1972)"`, `"Matrix, The"` →
`"The Matrix"`, `"Toy Story (1995)"` unchanged — and a title with no
recognized article suffix is unchanged provided it is already
whitespace-normal (no leading/trailing whitespace and no trailing year
pattern); otherwise only its whitespace and year spacing are normalized. -/
theorem format_title_spec :
    format_title "Godfather, The (1972)" = "The Godfather (1972)" ∧
    format_title "Matrix, The" = "The Matrix" ∧
    format_title "Toy Story (1995)" = "Toy Story (1995)" ∧
    ∀ s : String, s.data ≠ [] → (stripYear s.data).2 = none →
      pyStrip s.data = s.data →
      endsWithL s.data (", The".data) = false →
      endsWithL s.data (", A".data) = false →
      endsWithL s.data (", An".data) = false →
      format_title s = s := by
  refine ⟨by decide, by decide, by decide, ?_⟩
  intro s hne hyr hstrip h1 h2 h3
  have hfst := stripYear_fst_of_none hyr
  unfold format_title
  rw [if_neg hne]
  simp only [hfst, hstrip, h1, h2, h3, hyr, Bool.false_eq_true, if_false]

/-- C7 witness: the unchanged case applied at the whitespace-normal,
article-free, year-free title `"Inception"`. -/
theorem format_title_spec_witness :
    ("Inception".data ≠ [] ∧ (stripYear "Inception".data).2 = none ∧
      pyStrip "Inception".data = "Inception".data ∧
      endsWithL "Inception".data (", The".data) = false ∧
      endsWithL "Inception".data (", A".data) = false ∧
      endsWithL "Inception".data (", An".data) = false) ∧
    format_title "Inception" = "Inception" :=
  ⟨⟨by decide, by decide, by decide, by decide, by decide, by decide⟩,
   format_title_spec.2.2.2 "Inception" (by decide) (by decide) (by decide)
     (by decide) (by decide) (by decide)⟩

theorem mem_catLists {α : Type} {c : α} {ls : List (List α)} :
    c ∈ catLists ls ↔ ∃ l ∈ ls, c ∈ l := by
  induction ls with
  | nil => simp [catLists]
  | cons x t ih =>
    have hx : catLists (x :: t) = x ++ catLists t := rfl
    rw [hx]
    simp [List.mem_append, ih]

theorem length_catLists {α : Type} (ls : List (List α)) :
    (catLists ls).length = (ls.map List.length).sum := by
  induction ls with
  | nil => rfl
  | cons x t ih =>
    have hx : catLists (x :: t) = x ++ catLists t := rfl
    rw [hx]
    simp [ih]

theorem sum_map_const {α : Type} (l : List α) (c : Nat) :
    (l.map (fun _ => c)).sum = l.length * c := by
  induction l with
  | nil => simp
  | cons a t ih =>
    simp only [List.map_cons, List.sum_cons, ih, List.length_cons]
    ring

theorem hexChar_mem_of_lt (n : Nat) (h : n < 16) :
    hexChar n ∈ "0123456789abcdef".data := by
  interval_cases n <;> decide

theorem hexDigest_chars (bs : List Nat) :
    ∀ c ∈ hexDigest bs, c ∈ "0123456789abcdef".data := by
  intro c hc
  unfold hexDigest at hc
  rw [mem_catLists] at hc
  obtain ⟨l, hl, hcl⟩ := hc
  obtain ⟨b, _, rfl⟩ := List.mem_map.mp hl
  simp only [hexPair, List.mem_cons, List.not_mem_nil, or_false] at hcl
  rcases hcl with rfl | rfl
  · exact hexChar_mem_of_lt _ (Nat.mod_lt _ (by norm_num))
  · exact hexChar_mem_of_lt _ (Nat.mod_lt _ (by norm_num))

theorem length_hexDigest (bs : List Nat) : (hexDigest bs).length = 2 * bs.length := by
  induction bs with
  | nil => rfl
  | cons b t ih =>
    have hx : hexDigest (b :: t) = hexPair b ++ hexDigest t := rfl
    rw [hx, List.length_append, ih]
    simp [hexPair]
    ring

theorem compressRound_length (st : List Nat) (h : st.length = 8) (wk : Nat × Nat) :
    (compressRound st wk).length = 8 := by
  unfold compressRound
  split
  · rfl
  · exact h

theorem foldl_compress_length (l : List (Nat × Nat)) : ∀ st : List Nat, st.length = 8 →
    (l.foldl compressRound st).length = 8 := by
  induction l with
  | nil => intro st h; exact h
  | cons x t ih => intro st h; exact ih _ (compressRound_length st h x)

theorem processBlock_length (hs block : List Nat) (h : hs.length = 8) :
    (processBlock hs block).length = 8 := by
  have hst := foldl_compress_length ((schedule (blockWords block)).zip K256) hs h
  unfold processBlock
  rw [List.length_map, List.length_zip, h, hst]
  omega

theorem foldl_process_length (blocks : List (List Nat)) : ∀ hs : List Nat, hs.length = 8 →
    (blocks.foldl processBlock hs).length = 8 := by
  induction blocks with
  | nil => intro hs h; exact h
  | cons b t ih => intro hs h; exact ih _ (processBlock_length hs b h)

theorem sha256bytes_length (m : List Nat) : (sha256bytes m).length = 32 := by
  have h8 : ((chunks64 (padMsg m)).foldl processBlock H256).length = 8 :=
    foldl_process_length _ H256 rfl
  unfold sha256bytes
  rw [length_catLists, List.map_map]
  have hc : (List.length ∘ bytesBE 4) = fun _ : Nat => 4 := by
    funext x
    simp [bytesBE]
  rw [hc, sum_map_const, h8]

theorem isSubOf_false_of_alien (needle hay : List Char) (c : Char) (hc : c ∈ needle)
    (hnot : c ∉ "0123456789abcdef".data)
    (hhay : ∀ d ∈ hay, d ∈ "0123456789abcdef".data) :
    isSubOf needle hay = false := by
  by_contra hne
  have htrue : isSubOf needle hay = true := by
    cases hb : isSubOf needle hay
    · exact absurd hb hne
    · rfl
  unfold isSubOf at htrue
  rw [List.any_eq_true] at htrue
  obtain ⟨i, _, hi⟩ := htrue
  have heq : (hay.drop i).take needle.length = needle := by simpa using hi
  have hmem : c ∈ hay :=
    List.drop_subset i hay (List.take_subset _ _ (heq.symm ▸ hc))
  exact hnot (hhay c hmem)

theorem sanitize_some_ne {term : String} {n : Nat} {t : String}
    (h : sanitize_input term n = some t) : t ≠ "" := by
  unfold sanitize_input at h
  by_cases h0 : term = ""
  · rw [if_pos h0] at h
    cases h
  · rw [if_neg h0] at h
    by_cases h3 : ((if n < (pyStrip term.data).length then (pyStrip term.data).take n
        else pyStrip term.data).filter (fun c => !isCtlChar c)) = []
    · rw [if_pos h3] at h
      cases h
    · rw [if_neg h3] at h
      injection h with h
      intro hempty
      apply h3
      have hd := congrArg String.data (h.trans hempty)
      simpa using hd

theorem hash_search_term_some {t : String} (h : t ≠ "") :
    hash_search_term t = some ⟨(hexDigest (sha256bytes (utf8Bytes t))).take 16⟩ := by
  unfold hash_search_term
  rw [if_neg h]

/-- C8: whenever the sanitized search term is nonempty, `save_search_log`
appends exactly one entry holding only the term hash, the timestamp and the
genre set; the stored hash is a fixed-length 16-character string over the
lowercase hex alphabet, so for any raw term containing a character outside
that alphabet — such as `"batman"` — the raw term never occurs inside the
stored hash field. -/
theorem search_log_privacy (term now : String) (genres : List String)
    (logs : List SearchLogEntry) (t : String)
    (hsan : sanitize_input term 100 = some t) :
    ∃ hsh : String,
      save_search_log term genres now logs = logs ++ [⟨some hsh, now, genres⟩] ∧
      hash_search_term t = some hsh ∧
      hsh.length = 16 ∧
      (∀ c ∈ hsh.data, c ∈ "0123456789abcdef".data) ∧
      ((∃ c ∈ term.data, c ∉ "0123456789abcdef".data) →
        isSubOf term.data hsh.data = false) := by
  have ht : t ≠ "" := sanitize_some_ne hsan
  refine ⟨⟨(hexDigest (sha256bytes (utf8Bytes t))).take 16⟩, ?_, ?_, ?_, ?_, ?_⟩
  · unfold save_search_log
    rw [hsan]
    simp only [hash_search_term_some ht]
  · exact hash_search_term_some ht
  · show ((hexDigest (sha256bytes (utf8Bytes t))).take 16).length = 16
    rw [List.length_take, length_hexDigest, sha256bytes_length]
    omega
  · intro c hc
    exact hexDigest_chars _ c (List.take_subset _ _ hc)
  · rintro ⟨c, hcterm, hcnot⟩
    exact isSubOf_false_of_alien term.data _ c hcterm hcnot
      (fun d hd => hexDigest_chars _ d (List.take_subset _ _ hd))

/-- C8 witness: logging the raw term `"batman"` with genres
`{"Action", "Adventure"}`; the literal `"batman"` cannot occur in the stored
hash field, whose characters are all hex digits while the term contains
the non-hex letter t. -/
theorem search_log_privacy_witness :
    sanitize_input "batman" 100 = some "batman" ∧
    ∃ hsh : String,
      save_search_log "batman" ["Action", "Adventure"] "2026-10-12T00:00:00" []
        = [] ++ [⟨some hsh, "2026-10-12T00:00:00", ["Action", "Adventure"]⟩] ∧
      hash_search_term "batman" = some hsh ∧
      hsh.length = 16 ∧
      (∀ c ∈ hsh.data, c ∈ "0123456789abcdef".data) ∧
      ((∃ c ∈ "batman".data, c ∉ "0123456789abcdef".data) →
        isSubOf "batman".data hsh.data = false) :=
  ⟨by decide,
   search_log_privacy "batman" "2026-10-12T00:00:00" ["Action", "Adventure"] []
     "batman" (by decide)⟩

end MovieApp
